import Mathlib

/-!
Shallow embedding of `src/gauge/gauge_svg_full.py` (class `GaugeSVGFull`).

Python floats are modelled as rationals.  Python float division by zero and
reads of never-assigned attributes raise, which is modelled with
`Except PyErr`.  The trigonometric projection of angles to pixel coordinates
(`math.cos` / `math.sin`) carries no branching decision and is pure rendering,
so the tick, zone and frame generators are embedded at the level of the
per-element decisions the source makes: which value, which angle, minor or
major, deduplication key, and whether a label is emitted.
-/

/-- Exceptions of the embedded fragment: reading an attribute whose assignment
is commented out in the source, and float division by zero. -/
inductive PyErr where
  | attributeError
  | zeroDivisionError
  deriving DecidableEq, Repr

/-- Python built-in `round` to an integer, idealized over rationals
(half-to-even, as Python rounds). -/
def pyRound (q : ℚ) : ℤ :=
  let f := ⌊q⌋
  let r := q - (f : ℚ)
  if r < 1/2 then f
  else if 1/2 < r then f + 1
  else if f % 2 = 0 then f else f + 1

/-- Deduplication key of the tick generator: `round(float(angle), 6)`, scaled
by `10^6` to an integer (scaling by a fixed power of ten preserves equality of
keys, which is all the `seen_angles` set is used for). -/
def angKey (a : ℚ) : ℤ := pyRound (a * 1000000)

/-- Keyword arguments of `GaugeSVGFull.__init__` (lines 21-39), with the
source's default values. -/
structure InitArgs where
  value : ℚ := 0
  min_value : ℚ := 0
  max_value : ℚ := 100
  label : String := "Gauge"
  gauge_type : String := "semicircular"
  background_image : Option String := none
  size : ℤ := 220
  needle_color : String := "#000000"
  needle_length : ℚ := 3/4
  show_value : Bool := true
  show_ticks : Bool := true
  tick_count : Option ℤ := none
  angle_map : Option (List (ℚ × ℚ)) := none
  angle_center : Option ℚ := none
  angle_span : Option ℚ := none
  counter_clockwise : Bool := false
  deriving DecidableEq

/-- Attribute state of a `GaugeSVGFull` object.  `_counter_clockwise` is an
`Option` because its assignment (line 80) is commented out in the source:
`none` models the attribute being absent, so that reading it raises
`AttributeError`, as in Python. -/
structure Gauge where
  _value : ℚ
  _min : ℚ
  _max : ℚ
  _label : String
  _gauge_type : String
  _size : ℤ
  _needle_color : String
  _needle_length : ℚ
  _show_value : Bool
  _show_ticks : Bool
  _tick_count : ℤ
  _background_image : Option String
  _angle_map : Option (List (ℚ × ℚ))
  _counter_clockwise : Option Bool
  _center_x : ℤ
  _center_y : ℤ
  _radius : ℤ
  _start_angle : ℚ
  _angle_range : ℚ
  _container_height : ℤ
  _background_base64 : Option String
  _colored_zones : Bool
  deriving DecidableEq

/-- Python `max(lo, min(hi, v))`, the clamp of lines 58 and 653. -/
def pyClamp (lo hi v : ℚ) : ℚ := max lo (min hi v)

/-- Interpolation step of `_calculate_angle`:
`t = (value - x0) / (x1 - x0); y0 + t * (y1 - y0)`. -/
def interpSeg (x0 y0 x1 y1 v : ℚ) : ℚ := y0 + (v - x0) / (x1 - x0) * (y1 - y0)

/-- Loop of lines 176-183: scan consecutive breakpoint pairs for the first
bracketing segment and interpolate there, with the degenerate-segment guard
(`if x1 == x0: return y0`).  Returns `none` when no pair brackets `v`, in
which case the source falls through to the linear-mode code. -/
def findSegment (v : ℚ) : List (ℚ × ℚ) → Option ℚ
  | p :: q :: rest =>
      if p.1 ≤ v ∧ v ≤ q.1 then
        some (if q.1 = p.1 then p.2 else interpSeg p.1 p.2 q.1 q.2 v)
      else findSegment v (q :: rest)
  | _ => none

/-- The pair `(m[-2], m[-1])` of the list `m = a :: b :: l`. -/
def lastTwo (a b : ℚ × ℚ) : List (ℚ × ℚ) → (ℚ × ℚ) × (ℚ × ℚ)
  | [] => (a, b)
  | c :: l => lastTwo b c l

/-- Lines 185-189 of `_calculate_angle`: the default linear mapping.  Line 186
divides by `self._max - self._min` (Python raises `ZeroDivisionError` when the
span is zero) and line 187 then reads `self._counter_clockwise`, an attribute
whose assignment at line 80 is commented out (reading it raises
`AttributeError` on every state `__init__` can produce). -/
def linearAngle (g : Gauge) (value : ℚ) : Except PyErr ℚ :=
  if g._max - g._min = 0 then .error .zeroDivisionError
  else
    match g._counter_clockwise with
    | none => .error .attributeError
    | some ccw =>
        let normalized := (value - g._min) / (g._max - g._min)
        let angle_range := g._angle_range * (if ccw then -1 else 1)
        .ok (g._start_angle + normalized * angle_range)

/-- `GaugeSVGFull._calculate_angle` (lines 140-189).  Truthiness of
`getattr(self, '_angle_map', None)`: the piecewise branch runs exactly when
the map is a non-empty list. -/
def calc_angle (g : Gauge) (value : ℚ) : Except PyErr ℚ :=
  match g._angle_map with
  | some [p] => .ok p.2
  | some (p :: q :: rest) =>
      if value ≤ p.1 then
        .ok (if q.1 = p.1 then p.2 else interpSeg p.1 p.2 q.1 q.2 value)
      else
        let l2 := lastTwo p q rest
        if (l2.2).1 ≤ value then
          .ok (if (l2.2).1 = (l2.1).1 then (l2.2).2
               else interpSeg (l2.1).1 (l2.1).2 (l2.2).1 (l2.2).2 value)
        else
          match findSegment value (p :: q :: rest) with
          | some a => .ok a
          | none => linearAngle g value
  | _ => linearAngle g value

/-- Arc parameters of one colored zone, as computed at lines 474-500 of
`_generate_colored_zones` (endpoint coordinates are the fixed trigonometric
projection of the two angles and are not decided here). -/
structure ZoneArc where
  a0 : ℚ
  a1 : ℚ
  largeArc : Bool
  sweep : Bool
  color : String
  deriving DecidableEq, Repr

/-- Hard-coded zone table of `_generate_colored_zones` (lines 462-467). -/
def zoneTable : List (ℚ × ℚ × String) :=
  [(9/10, 30, "#2ecc71"), (31, 50, "#f1c40f"), (51, 90, "#f96a0b"), (91, 99, "#d51d08")]

/-- Per-zone loop of `_generate_colored_zones` (lines 474-500):
`large_arc = |a1 - a0| > 180`, `sweep = (a1 - a0) > 0`. -/
def zoneArcsGo (g : Gauge) : List (ℚ × ℚ × String) → Except PyErr (List ZoneArc)
  | [] => .ok []
  | (s, e, c) :: zs => do
      let a0 ← calc_angle g s
      let a1 ← calc_angle g e
      let rest ← zoneArcsGo g zs
      return { a0 := a0, a1 := a1, largeArc := decide (|a1 - a0| > 180),
               sweep := decide (a1 - a0 > 0), color := c } :: rest

/-- `GaugeSVGFull._generate_colored_zones` (lines 451-502). -/
def generate_colored_zones (g : Gauge) : Except PyErr (List ZoneArc) :=
  if g._colored_zones then zoneArcsGo g zoneTable else .ok []

/-- Mapped breakpoint values lying inside `[min, max]`, deduplicated and
sorted ascending: `majors = sorted(set(...))` of lines 262-263 and 563-564. -/
def majorsOf (g : Gauge) (m : List (ℚ × ℚ)) : List ℚ :=
  List.insertionSort (fun x y => x ≤ y)
    (((m.map Prod.fst).filter (fun x => decide (g._min ≤ x) && decide (x ≤ g._max))).dedup)

/-- Arc parameters of the frame drawn when an angle map is present
(lines 560-597 of `_generate_svg`). -/
structure FrameArc where
  a0 : ℚ
  a1 : ℚ
  largeArc : Bool
  sweep : Bool
  radius : ℤ
  deriving DecidableEq, Repr

/-- Frame-arc part of `_generate_svg` (lines 560-597): an arc from the angle
of the first in-range mapped value to the angle of the last, at
`radius + 6`, with the flags of lines 588-590; `none` when no map is present
or no mapped value lies in range. -/
def generate_frame_arc (g : Gauge) : Except PyErr (Option FrameArc) :=
  match g._angle_map with
  | some (p :: rest) =>
      match majorsOf g (p :: rest) with
      | [] => .ok none
      | v :: vs => do
          let a0 ← calc_angle g v
          let a1 ← calc_angle g ((v :: vs).getLast (by simp))
          return some { a0 := a0, a1 := a1, largeArc := decide (|a1 - a0| > 180),
                        sweep := decide (a1 - a0 > 0), radius := g._radius + 6 }
  | _ => .ok none

/-- Background layer chosen at lines 531-551 of `_generate_svg`: the encoded
raster when one was loaded, otherwise a plain disc (circular) or half-disc
arc (semicircular). -/
inductive BgLayer where
  | image (b64 : String)
  | circle (r : ℤ)
  | halfArc (r : ℤ)
  deriving DecidableEq, Repr

/-- Background part of `_generate_svg` (lines 531-551). -/
def background_layer (g : Gauge) : BgLayer :=
  match g._background_base64 with
  | some b => .image b
  | none => if g._gauge_type = "circular" then .circle g._radius else .halfArc g._radius

/-- One element emitted by `_generate_tick_marks`: a tick line (major or
minor) or a tick label, recorded with the value and angle that position it. -/
inductive TickElem where
  | line (value angle : ℚ) (minor : Bool)
  | label (value angle : ℚ)
  deriving DecidableEq, Repr

/-- Minor-tick loop of `_generate_tick_marks` in piecewise mode (lines
322-354): `j` ranges over `1..9` and `t = j / 10`; each minor tick is
deduplicated against `seen_angles` before being drawn. -/
def minorTicksGo (g : Gauge) (v0 v1 : ℚ) :
    List ℕ → List ℤ → Except PyErr (List TickElem × List ℤ)
  | [], seen => .ok ([], seen)
  | j :: js, seen => do
      let vm := v0 + ((j : ℚ) / 10) * (v1 - v0)
      let am ← calc_angle g vm
      let k := angKey am
      if k ∈ seen then
        minorTicksGo g v0 v1 js seen
      else do
        let (es, seen') ← minorTicksGo g v0 v1 js (k :: seen)
        return (TickElem.line vm am true :: es, seen')

/-- Major-tick loop of `_generate_tick_marks` in piecewise mode (lines
274-356): for each in-range mapped value, a major tick line and its label,
then nine minor ticks toward the next major; a major whose rounded angle was
already seen is skipped together with its minors (`continue`). -/
def mapTicksGo (g : Gauge) : List ℚ → List ℤ → Except PyErr (List TickElem)
  | [], _ => .ok []
  | v :: vs, seen => do
      let angle ← calc_angle g v
      let k := angKey angle
      if k ∈ seen then
        mapTicksGo g vs seen
      else do
        let mins ←
          match vs with
          | [] => Except.ok (([] : List TickElem), k :: seen)
          | v1 :: _ => minorTicksGo g v v1 [1, 2, 3, 4, 5, 6, 7, 8, 9] (k :: seen)
        let tail ← mapTicksGo g vs mins.2
        return TickElem.line v angle false :: TickElem.label v angle :: (mins.1 ++ tail)

/-- Default-policy loop of `_generate_tick_marks` (lines 368-447): per index,
compute the value (even spacing, or the supplied full-turn value), its angle,
skip out-of-range values and duplicated angles, emit the tick line, and emit
a label when `i % max(1, round(total_divs / 12)) == 0 or i == 0 or
i == total_divs`. -/
def defaultTicksGo (g : Gauge) (total_divs : ℤ) :
    List (ℕ × Option ℚ) → List ℤ → Except PyErr (List TickElem)
  | [], _ => .ok []
  | (i, tv) :: rest, seen => do
      let value : ℚ ←
        match tv with
        | some vv => Except.ok vv
        | none =>
            if total_divs = 0 then Except.error PyErr.zeroDivisionError
            else Except.ok (g._min + ((i : ℚ) / (total_divs : ℚ)) * (g._max - g._min))
      let angle ← calc_angle g value
      if value < g._min ∨ value > g._max then
        defaultTicksGo g total_divs rest seen
      else
        let k := angKey angle
        if k ∈ seen then
          defaultTicksGo g total_divs rest seen
        else do
          let tail ← defaultTicksGo g total_divs rest (k :: seen)
          let label_step : ℤ := max 1 (pyRound ((total_divs : ℚ) / 12))
          let lab := (i : ℤ) % label_step = 0 ∨ i = 0 ∨ (i : ℤ) = total_divs
          return TickElem.line value angle false ::
            ((if lab then [TickElem.label value angle] else []) ++ tail)

/-- `GaugeSVGFull._generate_tick_marks` (lines 245-449), at the level of the
per-tick decisions (value, angle, minor flag, label emission).  Policy
selection follows the source: piecewise-anchored ticks when a non-empty angle
map is present, the 13-tick full-turn set when the gauge is semicircular with
a span of exactly 360, and the uniform `tick_count + 1` policy otherwise. -/
def generate_tick_marks (g : Gauge) : Except PyErr (List TickElem) :=
  if !g._show_ticks then .ok []
  else
    match g._angle_map with
    | some (p :: rest) =>
        match majorsOf g (p :: rest) with
        | [] => .ok []
        | v :: vs => mapTicksGo g (v :: vs) []
    | _ =>
        if g._gauge_type = "semicircular" ∧ g._max - g._min = 360 then
          defaultTicksGo g 12
            ((List.range 13).map (fun i => (i, some (g._min + (i : ℚ) * 30)))) []
        else
          defaultTicksGo g g._tick_count
            ((List.range (g._tick_count + 1).toNat).map (fun i => (i, (none : Option ℚ)))) []

/-- The patch `set_value` pushes to the page (lines 660-673): the needle
group's new rotation transform `rotate(angle, cx, cy)` and the value label's
new text `f'{value:.1f}'` - nothing else is touched. -/
structure Patch where
  angle : ℚ
  cx : ℤ
  cy : ℤ
  labelText : ℚ
  deriving DecidableEq, Repr

/-- Python format `f'{v:.1f}'`, idealized over rationals: the value rounded to
one decimal place. -/
def fmtOneDecimal (v : ℚ) : ℚ := (pyRound (v * 10) : ℚ) / 10

/-- State change of `set_value` (line 653): the stored value is clamped to
`[min, max]` before anything else happens. -/
def set_value_state (g : Gauge) (value : ℚ) : Gauge :=
  { g with _value := pyClamp g._min g._max value }

/-- `GaugeSVGFull.set_value` (lines 645-673): clamp the input, recompute only
the needle angle, and emit the patch. -/
def set_value (g : Gauge) (value : ℚ) : Except PyErr (Gauge × Patch) := do
  let g' := set_value_state g value
  let angle ← calc_angle g' g'._value
  return (g', { angle := angle, cx := g'._center_x, cy := g'._center_y,
                labelText := fmtOneDecimal g'._value })

/-- Read accessor `value` (lines 675-678): the last clamped value. -/
def Gauge.value (g : Gauge) : ℚ := g._value

/-- Folding a sequence of `set_value` calls over the state.  The stored value
is updated by every call (line 653 runs before the angle computation), so
the state evolution is exactly this fold. -/
def applyValues (g : Gauge) (vs : List ℚ) : Gauge :=
  vs.foldl set_value_state g

/-- `GaugeSVGFull.__init__` (lines 21-138).  The attribute assignments at
lines 80-82 are commented out in the source, so `_counter_clockwise` is built
as `none`, and the condition at line 90 (`self._angle_map is None and
(self._angle_span is not None)`) reads `self._angle_span` - raising
`AttributeError` - exactly when the angle map attribute is `None` (the `and`
short-circuits otherwise), which makes lines 91-103 unreachable.  A supplied
`angle_map` is truthy exactly when non-empty, and is then sorted by value.
`bgData` stands for the bytes read from `background_image` when that file
exists (the one construction-time I/O, modelled as a parameter).  The final
`do` block mirrors `_create_gauge_container` (line 138): the initial angle,
then the zones, frame and ticks of the composed document, any of which would
propagate an exception. -/
def GaugeSVGFull.init (a : InitArgs) (bgData : Option String) : Except PyErr Gauge :=
  let v := pyClamp a.min_value a.max_value a.value
  let tick_count : ℤ :=
    match a.tick_count with
    | none => if a.gauge_type = "semicircular" then 12 else 10
    | some t => t
  let am : Option (List (ℚ × ℚ)) :=
    match a.angle_map with
    | some (p :: l) => some (List.insertionSort (fun s t => s.1 ≤ t.1) (p :: l))
    | _ => none
  match am with
  | none => .error .attributeError
  | some m =>
      let sa : ℚ × ℚ × ℤ :=
        if a.gauge_type = "circular" then (270, 360, a.size + 30)
        else (180, -180, Int.fdiv a.size 2 + 30)
      let g : Gauge :=
        { _value := v
          _min := a.min_value
          _max := a.max_value
          _label := a.label
          _gauge_type := a.gauge_type
          _size := a.size
          _needle_color := a.needle_color
          _needle_length := a.needle_length
          _show_value := a.show_value
          _show_ticks := a.show_ticks
          _tick_count := tick_count
          _background_image := a.background_image
          _angle_map := some m
          _counter_clockwise := none
          _center_x := Int.fdiv a.size 2
          _center_y := Int.fdiv a.size 2
          _radius := Int.fdiv a.size 2 - 20
          _start_angle := sa.1
          _angle_range := sa.2.1
          _container_height := sa.2.2
          _background_base64 := if a.background_image.isSome then bgData else none
          _colored_zones := decide (a.min_value = 0 ∧ a.max_value = 100) }
      do
        let _ ← calc_angle g g._value
        let _ ← generate_colored_zones g
        let _ ← generate_frame_arc g
        let _ ← generate_tick_marks g
        return g

/-- Ordering of breakpoints by value, the key `lambda t: t[0]` of the
constructor's `sorted` call (line 85): non-strict, so duplicated values are
kept. -/
def leByValue (s t : ℚ × ℚ) : Prop := s.1 ≤ t.1

/-- Strict ordering of breakpoints by value (pairwise-distinct breakpoint
values). -/
def ltByValue (s t : ℚ × ℚ) : Prop := s.1 < t.1

instance : DecidableRel leByValue := fun s t => inferInstanceAs (Decidable (s.1 ≤ t.1))

instance : DecidableRel ltByValue := fun s t => inferInstanceAs (Decidable (s.1 < t.1))

/-- The point `(x, y)` lies on the line through the two points `p` and `q`
(cross-multiplied form, meaningful also for vertical lines). -/
def onLine (p q : ℚ × ℚ) (x y : ℚ) : Prop :=
  (q.1 - p.1) * (y - p.2) = (q.2 - p.2) * (x - p.1)

/-- The value positioning a tick line, when the element is one. -/
def tickLineValue : TickElem → Option ℚ
  | .line v _ _ => some v
  | _ => none

/-- The value positioning a tick label, when the element is one. -/
def tickLabelValue : TickElem → Option ℚ
  | .label v _ => some v
  | _ => none

/-- Test fixture: the attribute state `__init__` assembles for the default
semicircular 0..100 gauge (every field as lines 57-135 compute it), except
that `_counter_clockwise` is left to the fixture's choice below; recall that
line 90 prevents `__init__` from ever returning such a no-map state. -/
def baseGauge : Gauge :=
  { _value := 0
    _min := 0
    _max := 100
    _label := "Gauge"
    _gauge_type := "semicircular"
    _size := 220
    _needle_color := "#000000"
    _needle_length := 3/4
    _show_value := true
    _show_ticks := true
    _tick_count := 12
    _background_image := none
    _angle_map := none
    _counter_clockwise := none
    _center_x := 110
    _center_y := 110
    _radius := 90
    _start_angle := 180
    _angle_range := -180
    _container_height := 140
    _background_base64 := none
    _colored_zones := true }

/-- Zero-width fixture (`min_value = max_value = 0`), with
`_counter_clockwise` present (as the commented-out line 80 would have set
it), so that the linear-mode division itself is what is evaluated. -/
def gaugeZeroSpan : Gauge :=
  { baseGauge with _max := 0, _counter_clockwise := some false, _colored_zones := false }

/-- Circular 0..100 fixture in linear mode, faithful to the constructor:
`_counter_clockwise` absent (line 80 is commented out). -/
def gaugeLinearCircular : Gauge :=
  { baseGauge with _gauge_type := "circular", _tick_count := 10, _start_angle := 270,
                   _angle_range := 360, _container_height := 250 }

/-- Circular fixture with a numeric span of exactly 360, no angle map and a
caller-supplied `tick_count` of 2, with `_counter_clockwise` present so that
the tick planner's angle computation goes through. -/
def gaugeCirc360 : Gauge :=
  { gaugeLinearCircular with _max := 360, _tick_count := 2,
                             _counter_clockwise := some false, _colored_zones := false }

/-- Semicircular full-turn (heading) fixture: span 360, no angle map,
`_counter_clockwise` present. -/
def gaugeHeading : Gauge :=
  { baseGauge with _max := 360, _counter_clockwise := some false, _colored_zones := false }

/-- Fixture whose angle map has a duplicated breakpoint value; the list is
its own image under the constructor's stable `sorted(..., key=lambda t: t[0])`. -/
def gaugeDup : Gauge :=
  { baseGauge with _angle_map := some [(0, 0), (0, 1)] }

/-- Fixture with the three-point calibration map of the specification's
worked scenario. -/
def gaugePw : Gauge :=
  { baseGauge with _angle_map := some [(0, -45), (50, 0), (100, 45)] }

/-- Constructor arguments of a two-point 0..50 gauge used as a witness
(ticks disabled to keep the composed document small). -/
def argsW : InitArgs :=
  { max_value := 50, angle_map := some [(0, 0), (50, 90)], show_ticks := false }

/-- The state `__init__` returns for `argsW`. -/
def gaugeW : Gauge :=
  { baseGauge with _max := 50, _angle_map := some [(0, 0), (50, 90)],
                   _show_ticks := false, _colored_zones := false }

/-- Bind on a success in the `Except` monad. -/
@[simp] theorem exceptBind_ok {α β : Type} (a : α) (f : α → Except PyErr β) :
    (Except.ok a >>= f) = f a := rfl

/-- Bind on a failure in the `Except` monad. -/
@[simp] theorem exceptBind_error {α β : Type} (e : PyErr) (f : α → Except PyErr β) :
    ((Except.error e : Except PyErr α) >>= f) = Except.error e := rfl

/-- Pure of the `Except` monad. -/
@[simp] theorem exceptPure {α : Type} (a : α) :
    (pure a : Except PyErr α) = Except.ok a := rfl

/-- Map over a success. -/
@[simp] theorem exceptMap_ok {α β : Type} (f : α → β) (a : α) :
    (Except.ok a : Except PyErr α).map f = Except.ok (f a) := rfl

/-- Map over a failure. -/
@[simp] theorem exceptMap_error {α β : Type} (f : α → β) (e : PyErr) :
    (Except.error e : Except PyErr α).map f = Except.error e := rfl

/-- C1: the spec requires a zero-width configuration (`min = 0, max = 0`) to
render without raising, resolving the degenerate range to a deterministic
fallback angle.  The code does the opposite: constructing the gauge with no
angle map raises `AttributeError` at line 90, and the linear-mode angle
computation itself (evaluated on the state with the commented-out attribute
restored) raises `ZeroDivisionError` at line 186. -/
theorem C1_zero_width_configuration_raises :
    GaugeSVGFull.init { min_value := 0, max_value := 0 } none
      = Except.error PyErr.attributeError ∧
    calc_angle gaugeZeroSpan 0 = Except.error PyErr.zeroDivisionError := by
  refine ⟨rfl, ?_⟩
  norm_num [calc_angle, gaugeZeroSpan, baseGauge, linearAngle]

/-- C2: whenever no (truthy) `angle_map` is supplied, the constructor raises
`AttributeError` before any document is produced: line 90 reads the
never-assigned attribute `_angle_span` (its assignment at line 82 is
commented out), and the short-circuit of `and` protects the read only when
the sorted map was just assigned. -/
theorem C2_missing_angle_map_raises (a : InitArgs) (bg : Option String)
    (h : a.angle_map = none ∨ a.angle_map = some []) :
    GaugeSVGFull.init a bg = Except.error PyErr.attributeError := by
  rcases h with h | h <;> simp [GaugeSVGFull.init, h]

/-- Witness for C2 at the constructor's default arguments. -/
theorem C2_missing_angle_map_raises_witness :
    GaugeSVGFull.init {} none = Except.error PyErr.attributeError :=
  C2_missing_angle_map_raises {} none (Or.inl rfl)

/-- C3: the spec's linear-mode formula (with `counterClockwise` flipping the
sweep) never executes: construction of a linear-mode gauge raises
`AttributeError` at line 90, and even on a hand-built linear-mode state the
formula's line 187 reads `_counter_clockwise`, whose assignment at line 80
is commented out, so `_calculate_angle` raises instead of returning
`270 + 0.5 * 360 * (-1)`. -/
theorem C3_linear_mode_unreachable :
    GaugeSVGFull.init
        { min_value := 0, max_value := 100, gauge_type := "circular",
          counter_clockwise := true } none
      = Except.error PyErr.attributeError ∧
    calc_angle gaugeLinearCircular 50 = Except.error PyErr.attributeError := by
  refine ⟨rfl, ?_⟩
  norm_num [calc_angle, gaugeLinearCircular, baseGauge, linearAngle]

/-- Lower bound of the clamp. -/
theorem le_pyClamp (lo hi v : ℚ) : lo ≤ pyClamp lo hi v := le_max_left _ _

/-- Upper bound of the clamp, for a non-degenerate range. -/
theorem pyClamp_le (lo hi v : ℚ) (h : lo ≤ hi) : pyClamp lo hi v ≤ hi :=
  max_le h (min_le_left _ _)

/-- Below-range inputs clamp to the lower bound. -/
theorem pyClamp_of_lt (lo hi v : ℚ) (hlh : lo ≤ hi) (h : v < lo) : pyClamp lo hi v = lo := by
  unfold pyClamp
  rw [min_eq_right (h.le.trans hlh), max_eq_left h.le]

/-- Above-range inputs clamp to the upper bound. -/
theorem pyClamp_of_gt (lo hi v : ℚ) (hlh : lo ≤ hi) (h : hi < v) : pyClamp lo hi v = hi := by
  unfold pyClamp
  rw [min_eq_left h.le, max_eq_right hlh]

/-- A chain of four discarded binds followed by `return x` can only succeed
with `x` itself. -/
theorem seqFour_ok {α β γ δ ε : Type} (e1 : Except PyErr α) (e2 : Except PyErr β)
    (e3 : Except PyErr γ) (e4 : Except PyErr δ) (x g : ε)
    (h : (do
      let _ ← e1
      let _ ← e2
      let _ ← e3
      let _ ← e4
      pure x : Except PyErr ε) = Except.ok g) : g = x := by
  cases e1 <;> cases e2 <;> cases e3 <;> cases e4 <;> simp_all

/-- Whatever state the constructor returns carries the requested bounds and
the clamped initial value (lines 57-59). -/
theorem init_ok_fields (a : InitArgs) (bg : Option String) (g : Gauge)
    (h : GaugeSVGFull.init a bg = Except.ok g) :
    g._min = a.min_value ∧ g._max = a.max_value ∧
    g._value = pyClamp a.min_value a.max_value a.value := by
  unfold GaugeSVGFull.init at h
  cases ham : a.angle_map with
  | none =>
      rw [ham] at h
      simp at h
  | some l =>
      cases l with
      | nil =>
          rw [ham] at h
          simp at h
      | cons p t =>
          rw [ham] at h
          simp only [] at h
          have hg := seqFour_ok _ _ _ _ _ g h
          subst hg
          exact ⟨rfl, rfl, rfl⟩

/-- `set_value` does not change the bounds. -/
theorem set_value_state_min (g : Gauge) (v : ℚ) : (set_value_state g v)._min = g._min := rfl

/-- `set_value` does not change the bounds. -/
theorem set_value_state_max (g : Gauge) (v : ℚ) : (set_value_state g v)._max = g._max := rfl

/-- `set_value` does not change the angle map. -/
theorem set_value_state_angle_map (g : Gauge) (v : ℚ) :
    (set_value_state g v)._angle_map = g._angle_map := rfl

/-- `set_value` does not change the tick flag. -/
theorem set_value_state_show_ticks (g : Gauge) (v : ℚ) :
    (set_value_state g v)._show_ticks = g._show_ticks := rfl

/-- `set_value` does not change the gauge type. -/
theorem set_value_state_gauge_type (g : Gauge) (v : ℚ) :
    (set_value_state g v)._gauge_type = g._gauge_type := rfl

/-- `set_value` does not change the tick count. -/
theorem set_value_state_tick_count (g : Gauge) (v : ℚ) :
    (set_value_state g v)._tick_count = g._tick_count := rfl

/-- The bounds survive any sequence of `set_value` calls. -/
theorem applyValues_min (g : Gauge) (vs : List ℚ) : (applyValues g vs)._min = g._min := by
  induction vs generalizing g with
  | nil => rfl
  | cons v vs ih => simpa [applyValues] using ih (set_value_state g v)

/-- The bounds survive any sequence of `set_value` calls. -/
theorem applyValues_max (g : Gauge) (vs : List ℚ) : (applyValues g vs)._max = g._max := by
  induction vs generalizing g with
  | nil => rfl
  | cons v vs ih => simpa [applyValues] using ih (set_value_state g v)

/-- If the stored value starts inside the bounds, it stays inside them under
any sequence of `set_value` calls. -/
theorem applyValues_value_bounds (g : Gauge) (vs : List ℚ) (hle : g._min ≤ g._max)
    (hlo : g._min ≤ g._value) (hhi : g._value ≤ g._max) :
    g._min ≤ (applyValues g vs)._value ∧ (applyValues g vs)._value ≤ g._max := by
  induction vs generalizing g with
  | nil => exact ⟨hlo, hhi⟩
  | cons v vs ih =>
      have h := ih (set_value_state g v) hle (le_pyClamp _ _ _) (pyClamp_le _ _ _ hle)
      simpa [applyValues] using h

/-- C5: the stored value is never observed outside `[minValue, maxValue]`:
the constructor clamps the initial value (line 58), every `set_value` clamps
its input (line 653) - out-of-range inputs land on the nearest bound - and
the `value` accessor returns the stored (clamped) value, after any sequence
of calls. -/
theorem C5_value_always_clamped (a : InitArgs) (bg : Option String) (g : Gauge)
    (hinit : GaugeSVGFull.init a bg = Except.ok g)
    (hle : a.min_value ≤ a.max_value) (vs : List ℚ) :
    a.min_value ≤ (applyValues g vs).value ∧ (applyValues g vs).value ≤ a.max_value ∧
    (∀ w, w < a.min_value → (set_value_state (applyValues g vs) w).value = a.min_value) ∧
    (∀ w, a.max_value < w → (set_value_state (applyValues g vs) w).value = a.max_value) := by
  obtain ⟨hmin, hmax, hval⟩ := init_ok_fields a bg g hinit
  have hb := applyValues_value_bounds g vs (by rw [hmin, hmax]; exact hle)
    (by rw [hmin, hval]; exact le_pyClamp _ _ _)
    (by rw [hmax, hval]; exact pyClamp_le _ _ _ hle)
  rw [hmin, hmax] at hb
  refine ⟨hb.1, hb.2, ?_, ?_⟩
  · intro w hw
    show pyClamp (applyValues g vs)._min (applyValues g vs)._max w = a.min_value
    rw [applyValues_min, applyValues_max, hmin, hmax]
    exact pyClamp_of_lt _ _ _ hle hw
  · intro w hw
    show pyClamp (applyValues g vs)._min (applyValues g vs)._max w = a.max_value
    rw [applyValues_min, applyValues_max, hmin, hmax]
    exact pyClamp_of_gt _ _ _ hle hw

/-- Witness for C5: the gauge built from `argsW`, driven through an
out-of-range overshoot and an undershoot. -/
theorem C5_value_always_clamped_witness :
    (0 : ℚ) ≤ (applyValues gaugeW [120, -7]).value ∧
    (applyValues gaugeW [120, -7]).value ≤ 50 ∧
    (set_value_state (applyValues gaugeW [120, -7]) (-3)).value = 0 ∧
    (set_value_state (applyValues gaugeW [120, -7]) 200).value = 50 := by
  have hinit : GaugeSVGFull.init argsW none = Except.ok gaugeW := by
    norm_num [GaugeSVGFull.init, argsW, gaugeW, baseGauge, calc_angle, generate_colored_zones,
      generate_frame_arc, generate_tick_marks, majorsOf, List.insertionSort, List.orderedInsert,
      interpSeg, lastTwo, pyClamp, List.dedup, List.pwFilter]
    decide
  have h := C5_value_always_clamped argsW none gaugeW hinit (by norm_num [argsW]) [120, -7]
  norm_num only [argsW] at h
  exact ⟨h.1, h.2.1, h.2.2.1 (-3) (by norm_num), h.2.2.2 200 (by norm_num)⟩

/-- Changing only the stored value leaves `_calculate_angle` unchanged: the
mapping depends on configuration fields only. -/
theorem calc_angle_value_irrel (g : Gauge) (v w : ℚ) :
    calc_angle (set_value_state g v) w = calc_angle g w := rfl

/-- The zone loop ignores the stored value. -/
theorem zoneArcsGo_value_irrel (g : Gauge) (v : ℚ) (zs : List (ℚ × ℚ × String)) :
    zoneArcsGo (set_value_state g v) zs = zoneArcsGo g zs := by
  induction zs with
  | nil => rfl
  | cons z zs ih => simp only [zoneArcsGo, calc_angle_value_irrel, ih]

/-- The colored zones ignore the stored value. -/
theorem generate_colored_zones_value_irrel (g : Gauge) (v : ℚ) :
    generate_colored_zones (set_value_state g v) = generate_colored_zones g := by
  unfold generate_colored_zones
  exact if_congr Iff.rfl (zoneArcsGo_value_irrel g v zoneTable) rfl

/-- The frame arc ignores the stored value. -/
theorem generate_frame_arc_value_irrel (g : Gauge) (v : ℚ) :
    generate_frame_arc (set_value_state g v) = generate_frame_arc g := rfl

/-- The background layer ignores the stored value. -/
theorem background_layer_value_irrel (g : Gauge) (v : ℚ) :
    background_layer (set_value_state g v) = background_layer g := rfl

/-- The minor-tick loop ignores the stored value. -/
theorem minorTicksGo_value_irrel (g : Gauge) (v v0 v1 : ℚ) (js : List ℕ) :
    ∀ seen, minorTicksGo (set_value_state g v) v0 v1 js seen = minorTicksGo g v0 v1 js seen := by
  induction js with
  | nil => intro seen; rfl
  | cons j js ih => intro seen; simp only [minorTicksGo, calc_angle_value_irrel, ih]

/-- The major-tick loop ignores the stored value. -/
theorem mapTicksGo_value_irrel (g : Gauge) (v : ℚ) (ms : List ℚ) :
    ∀ seen, mapTicksGo (set_value_state g v) ms seen = mapTicksGo g ms seen := by
  induction ms with
  | nil => intro seen; rfl
  | cons m ms ih =>
      intro seen
      simp only [mapTicksGo, calc_angle_value_irrel, minorTicksGo_value_irrel, ih]

/-- The uniform tick loop ignores the stored value. -/
theorem defaultTicksGo_value_irrel (g : Gauge) (v : ℚ) (td : ℤ) (l : List (ℕ × Option ℚ)) :
    ∀ seen, defaultTicksGo (set_value_state g v) td l seen = defaultTicksGo g td l seen := by
  induction l with
  | nil => intro seen; rfl
  | cons e l ih =>
      intro seen
      obtain ⟨i, tv⟩ := e
      simp only [defaultTicksGo, calc_angle_value_irrel, ih, set_value_state_min,
        set_value_state_max]

/-- The whole tick generator ignores the stored value. -/
theorem generate_tick_marks_value_irrel (g : Gauge) (v : ℚ) :
    generate_tick_marks (set_value_state g v) = generate_tick_marks g := by
  have hmaj : ∀ m, majorsOf (set_value_state g v) m = majorsOf g m := fun _ => rfl
  unfold generate_tick_marks
  simp only [hmaj, mapTicksGo_value_irrel, defaultTicksGo_value_irrel, set_value_state_min,
    set_value_state_max, set_value_state_angle_map, set_value_state_show_ticks,
    set_value_state_gauge_type, set_value_state_tick_count]

/-- C7: `set_value` clamps, recomputes only the angle, and its patch is
exactly the needle's new rotation transform plus the value label's text
rounded to one decimal place; ticks, zones, frame and background are
untouched (they depend only on configuration, which `set_value` leaves
intact). -/
theorem C7_patch_minimal (g : Gauge) (v a : ℚ)
    (h : calc_angle g (pyClamp g._min g._max v) = Except.ok a) :
    set_value g v = Except.ok (set_value_state g v,
      { angle := a, cx := g._center_x, cy := g._center_y,
        labelText := fmtOneDecimal (pyClamp g._min g._max v) }) ∧
    (set_value_state g v)._value = pyClamp g._min g._max v ∧
    generate_tick_marks (set_value_state g v) = generate_tick_marks g ∧
    generate_colored_zones (set_value_state g v) = generate_colored_zones g ∧
    generate_frame_arc (set_value_state g v) = generate_frame_arc g ∧
    background_layer (set_value_state g v) = background_layer g := by
  refine ⟨?_, rfl, generate_tick_marks_value_irrel g v,
    generate_colored_zones_value_irrel g v, generate_frame_arc_value_irrel g v,
    background_layer_value_irrel g v⟩
  simp only [set_value]
  have h2 : calc_angle (set_value_state g v) ((set_value_state g v)._value) = Except.ok a := h
  rw [h2]
  rfl

/-- Witness for C7 at the worked three-point map, value 75 (clamped to
itself), interpolated angle 22.5. -/
theorem C7_patch_minimal_witness :
    set_value gaugePw 75 = Except.ok (set_value_state gaugePw 75,
      { angle := 45/2, cx := gaugePw._center_x, cy := gaugePw._center_y,
        labelText := fmtOneDecimal (pyClamp gaugePw._min gaugePw._max 75) }) ∧
    (set_value_state gaugePw 75)._value = pyClamp gaugePw._min gaugePw._max 75 ∧
    generate_tick_marks (set_value_state gaugePw 75) = generate_tick_marks gaugePw ∧
    generate_colored_zones (set_value_state gaugePw 75) = generate_colored_zones gaugePw ∧
    generate_frame_arc (set_value_state gaugePw 75) = generate_frame_arc gaugePw ∧
    background_layer (set_value_state gaugePw 75) = background_layer gaugePw :=
  C7_patch_minimal gaugePw 75 (45/2) (by
    norm_num [calc_angle, gaugePw, baseGauge, pyClamp, interpSeg, lastTwo, findSegment])

/-- C9: calling `set_value` twice with the same input yields the same state
and the same patch the second time - there is no hidden accumulated state. -/
theorem C9_set_value_idempotent (g : Gauge) (x : ℚ) (g1 : Gauge) (p1 : Patch)
    (h : set_value g x = Except.ok (g1, p1)) :
    set_value g1 x = Except.ok (g1, p1) := by
  simp only [set_value] at h ⊢
  cases hc : calc_angle (set_value_state g x) ((set_value_state g x)._value) with
  | error e => rw [hc] at h; simp at h
  | ok a =>
      rw [hc] at h
      simp only [exceptBind_ok, exceptPure, Except.ok.injEq, Prod.mk.injEq] at h
      obtain ⟨hg, hp⟩ := h
      subst hg
      have he : set_value_state (set_value_state g x) x = set_value_state g x := rfl
      rw [he, hc]
      simp only [exceptBind_ok, exceptPure, Except.ok.injEq, Prod.mk.injEq]
      exact ⟨trivial, hp⟩

/-- Witness for C9: repeating `set_value 150` on the three-point gauge (the
input clamps to 100, angle 45, label 100). -/
theorem C9_set_value_idempotent_witness :
    set_value (set_value_state gaugePw 150) 150
      = Except.ok (set_value_state gaugePw 150,
          { angle := 45, cx := 110, cy := 110, labelText := 100 }) :=
  C9_set_value_idempotent gaugePw 150 (set_value_state gaugePw 150)
    { angle := 45, cx := 110, cy := 110, labelText := 100 } (by
      norm_num [set_value, set_value_state, calc_angle, gaugePw, baseGauge, pyClamp,
        interpSeg, lastTwo, findSegment, fmtOneDecimal, pyRound])

/-- Interpolating at the left endpoint of a segment gives its start angle. -/
theorem interpSeg_left (x0 y0 x1 y1 : ℚ) : interpSeg x0 y0 x1 y1 x0 = y0 := by
  simp [interpSeg]

/-- Interpolating at the right endpoint of a non-degenerate segment gives its
end angle. -/
theorem interpSeg_right (x0 y0 x1 y1 : ℚ) (h : x1 ≠ x0) : interpSeg x0 y0 x1 y1 x1 = y1 := by
  rw [interpSeg, div_self (sub_ne_zero.mpr h), one_mul]
  ring

/-- The interpolated point lies on the line through the segment's endpoints. -/
theorem interpSeg_onLine (p q : ℚ × ℚ) (v : ℚ) (h : q.1 ≠ p.1) :
    onLine p q v (interpSeg p.1 p.2 q.1 q.2 v) := by
  unfold onLine interpSeg
  field_simp [sub_ne_zero.mpr h]
  ring

/-- In a strictly value-sorted list, the head's value is below every tail
value. -/
theorem chain_lt_head (p : ℚ × ℚ) (l : List (ℚ × ℚ))
    (h : List.Chain' ltByValue (p :: l)) : ∀ x ∈ l, p.1 < x.1 := by
  induction l generalizing p with
  | nil => simp
  | cons q l ih =>
      intro x hx
      have h1 : p.1 < q.1 := (List.chain'_cons.mp h).1
      have h2 := (List.chain'_cons.mp h).2
      rcases List.mem_cons.mp hx with rfl | hx'
      · exact h1
      · exact h1.trans (ih q h2 x hx')

/-- `m[-1]` is an element of the tail `b :: l` of `m = a :: b :: l`. -/
theorem lastTwo_snd_mem_tail (a b : ℚ × ℚ) (l : List (ℚ × ℚ)) :
    (lastTwo a b l).2 ∈ b :: l := by
  induction l generalizing a b with
  | nil => simp [lastTwo]
  | cons c l ih => simpa [lastTwo] using List.mem_cons_of_mem _ (ih b c)

/-- The relation of a chain holds between `m[-2]` and `m[-1]`. -/
theorem lastTwo_chain {r : ℚ × ℚ → ℚ × ℚ → Prop} (a b : ℚ × ℚ) (l : List (ℚ × ℚ))
    (h : List.Chain' r (a :: b :: l)) : r (lastTwo a b l).1 (lastTwo a b l).2 := by
  induction l generalizing a b with
  | nil => simpa [lastTwo] using (List.chain'_cons.mp h).1
  | cons c l ih => simpa [lastTwo] using ih b c (List.chain'_cons.mp h).2

/-- In a strictly value-sorted list, a tail element is either strictly below
the last value or is the last element itself. -/
theorem lastTwo_mem_cases (a b : ℚ × ℚ) (l : List (ℚ × ℚ)) (x : ℚ × ℚ)
    (h : List.Chain' ltByValue (a :: b :: l)) (hx : x ∈ b :: l) :
    x.1 < (lastTwo a b l).2.1 ∨ x = (lastTwo a b l).2 := by
  induction l generalizing a b with
  | nil =>
      right
      have hx' : x = b := by simpa using hx
      simpa [lastTwo] using hx'
  | cons c l ih =>
      have h2 := (List.chain'_cons.mp h).2
      rcases List.mem_cons.mp hx with rfl | hx'
      · left
        have hmem := lastTwo_snd_mem_tail x c l
        have := chain_lt_head x (c :: l) h2 _ hmem
        simpa [lastTwo] using this
      · simpa [lastTwo] using ih b c h2 hx'

/-- For a value-sorted map, the segment-search loop finds a bracketing
segment for every value between the first and the last breakpoint value. -/
theorem findSegment_isSome (v : ℚ) (a b : ℚ × ℚ) (l : List (ℚ × ℚ))
    (h : List.Chain' leByValue (a :: b :: l)) (h1 : a.1 ≤ v)
    (h2 : v ≤ (lastTwo a b l).2.1) :
    ∃ x, findSegment v (a :: b :: l) = some x := by
  induction l generalizing a b with
  | nil =>
      have hb : v ≤ b.1 := by simpa [lastTwo] using h2
      refine ⟨if b.1 = a.1 then a.2 else interpSeg a.1 a.2 b.1 b.2 v, ?_⟩
      simp [findSegment, h1, hb]
  | cons c l ih =>
      by_cases hvb : v ≤ b.1
      · refine ⟨if b.1 = a.1 then a.2 else interpSeg a.1 a.2 b.1 b.2 v, ?_⟩
        simp [findSegment, h1, hvb]
      · have h' := (List.chain'_cons.mp h).2
        have h1' : b.1 ≤ v := (not_le.mp hvb).le
        have h2' : v ≤ (lastTwo b c l).2.1 := by simpa [lastTwo] using h2
        obtain ⟨x, hx⟩ := ih b c h' h1' h2'
        refine ⟨x, ?_⟩
        simp only [findSegment]
        rw [if_neg (by exact fun hc => hvb hc.2)]
        exact hx

/-- For a strictly value-sorted map, the segment-search loop evaluated at an
interior breakpoint's value returns exactly that breakpoint's angle. -/
theorem findSegment_at_mem (a b : ℚ × ℚ) (l : List (ℚ × ℚ)) (x : ℚ × ℚ)
    (h : List.Chain' ltByValue (a :: b :: l)) (hx : x ∈ b :: l) :
    findSegment x.1 (a :: b :: l) = some x.2 := by
  induction l generalizing a b with
  | nil =>
      have hx' : x = b := by simpa using hx
      subst hx'
      have h1 : a.1 < x.1 := (List.chain'_cons.mp h).1
      simp only [findSegment]
      rw [if_pos ⟨h1.le, le_refl _⟩, if_neg (ne_of_gt h1), interpSeg_right _ _ _ _ (ne_of_gt h1)]
  | cons c l ih =>
      have h1 : a.1 < b.1 := (List.chain'_cons.mp h).1
      have h2 := (List.chain'_cons.mp h).2
      rcases List.mem_cons.mp hx with rfl | hx'
      · simp only [findSegment]
        rw [if_pos ⟨h1.le, le_refl _⟩, if_neg (ne_of_gt h1),
          interpSeg_right _ _ _ _ (ne_of_gt h1)]
      · have hbx : b.1 < x.1 := chain_lt_head b (c :: l) h2 x hx'
        simp only [findSegment]
        rw [if_neg (fun hc => absurd hc.2 (not_le.mpr hbx))]
        exact ih b c h2 hx'

/-- C10: with any non-empty value-sorted angle map, `_calculate_angle` is
total - it returns an angle for every input and never reaches the linear-mode
code (so neither the `ZeroDivisionError` of line 186 nor the
`AttributeError` of line 187 can occur, whatever `min`/`max` are); the
degenerate-segment guards return the first segment's start angle below range
and the last breakpoint's angle (not the segment's start angle) above
range. -/
theorem C10_piecewise_total (g : Gauge) (m : List (ℚ × ℚ))
    (hm : g._angle_map = some m) (hne : m ≠ [])
    (hs : List.Chain' leByValue m) :
    (∀ v, ∃ x, calc_angle g v = Except.ok x) ∧
    (∀ p q l, m = p :: q :: l → q.1 = p.1 → ∀ v, v ≤ p.1 →
        calc_angle g v = Except.ok p.2) ∧
    (∀ p q l, m = p :: q :: l → (lastTwo p q l).2.1 = (lastTwo p q l).1.1 →
        ∀ v, p.1 < v → (lastTwo p q l).2.1 ≤ v →
        calc_angle g v = Except.ok (lastTwo p q l).2.2) := by
  refine ⟨?_, ?_, ?_⟩
  · intro v
    cases m with
    | nil => exact absurd rfl hne
    | cons p t =>
        cases t with
        | nil => exact ⟨p.2, by simp [calc_angle, hm]⟩
        | cons q l =>
            by_cases h1 : v ≤ p.1
            · refine ⟨if q.1 = p.1 then p.2 else interpSeg p.1 p.2 q.1 q.2 v, ?_⟩
              simp [calc_angle, hm, h1]
            · by_cases h2 : (lastTwo p q l).2.1 ≤ v
              · refine ⟨if (lastTwo p q l).2.1 = (lastTwo p q l).1.1 then (lastTwo p q l).2.2
                  else interpSeg (lastTwo p q l).1.1 (lastTwo p q l).1.2
                    (lastTwo p q l).2.1 (lastTwo p q l).2.2 v, ?_⟩
                simp [calc_angle, hm, h1, h2]
              · obtain ⟨x, hx⟩ :=
                  findSegment_isSome v p q l hs (not_le.mp h1).le (not_le.mp h2).le
                exact ⟨x, by simp [calc_angle, hm, h1, h2, hx]⟩
  · intro p q l hml hq v hv
    subst hml
    simp [calc_angle, hm, hv, hq]
  · intro p q l hml heq v hv1 hv2
    subst hml
    have hv2' : (lastTwo p q l).1.1 ≤ v := heq ▸ hv2
    simp [calc_angle, hm, not_le.mpr hv1, hv2, hv2', heq]

/-- Witness for C10 on a map with a duplicated breakpoint value (both guards
fire). -/
theorem C10_piecewise_total_witness :
    (∃ x, calc_angle gaugeDup 7 = Except.ok x) ∧
    calc_angle gaugeDup (-5) = Except.ok 0 ∧
    calc_angle gaugeDup 5 = Except.ok 1 := by
  have h := C10_piecewise_total gaugeDup [(0, 0), (0, 1)] rfl (by simp)
    (by simp [List.chain'_cons, leByValue])
  refine ⟨h.1 7, ?_, ?_⟩
  · exact h.2.1 (0, 0) (0, 1) [] rfl rfl (-5) (by norm_num)
  · exact h.2.2 (0, 0) (0, 1) [] rfl rfl 5 (by norm_num) (by norm_num [lastTwo])

/-- C6 counterexample: the constructor accepts (and its non-strict sort
keeps) a map with a duplicated breakpoint value; at that value the mapping
returns the first of the two angles, so `calculateAngle(breakpoint.value) ==
breakpoint.angle` fails for the breakpoint `(0, 1)`. -/
theorem C6_counterexample :
    gaugeDup._angle_map = some [(0, 0), (0, 1)] ∧
    List.Chain' leByValue [((0 : ℚ), (0 : ℚ)), (0, 1)] ∧
    ((0 : ℚ), (1 : ℚ)) ∈ [((0 : ℚ), (0 : ℚ)), ((0 : ℚ), (1 : ℚ))] ∧
    calc_angle gaugeDup 0 = Except.ok 0 ∧ (0 : ℚ) ≠ 1 := by
  refine ⟨rfl, by simp [List.chain'_cons, leByValue], by simp, ?_, by norm_num⟩
  norm_num [calc_angle, gaugeDup, baseGauge]

/-- C6 amended: for a map whose breakpoint values are strictly increasing
(pairwise distinct values), `_calculate_angle` at each breakpoint value
returns exactly that breakpoint's angle. -/
theorem C6_strict_breakpoints_exact (g : Gauge) (m : List (ℚ × ℚ))
    (hm : g._angle_map = some m) (hs : List.Chain' ltByValue m) :
    ∀ p ∈ m, calc_angle g p.1 = Except.ok p.2 := by
  intro x hx
  cases m with
  | nil => simp at hx
  | cons a t =>
      cases t with
      | nil =>
          have hx' : x = a := by simpa using hx
          subst hx'
          simp [calc_angle, hm]
      | cons b l =>
          rcases List.mem_cons.mp hx with rfl | hx'
          · have h1 : x.1 < b.1 := (List.chain'_cons.mp hs).1
            simp only [calc_angle, hm]
            rw [if_pos (le_refl _), if_neg (ne_of_gt h1), interpSeg_left]
          · have hax : a.1 < x.1 := chain_lt_head a (b :: l) hs x hx'
            have hrel : (lastTwo a b l).1.1 < (lastTwo a b l).2.1 := lastTwo_chain a b l hs
            rcases lastTwo_mem_cases a b l x hs hx' with hlt | hlast
            · simp only [calc_angle, hm]
              rw [if_neg (not_le.mpr hax), if_neg (not_le.mpr hlt),
                findSegment_at_mem a b l x hs hx']
            · subst hlast
              simp only [calc_angle, hm]
              rw [if_neg (not_le.mpr hax), if_pos (le_refl _), if_neg (ne_of_gt hrel),
                interpSeg_right _ _ _ _ (ne_of_gt hrel)]

/-- Witness for the amended C6 at the three-point calibration map. -/
theorem C6_strict_breakpoints_exact_witness :
    calc_angle gaugePw 0 = Except.ok (-45) ∧
    calc_angle gaugePw 50 = Except.ok 0 ∧
    calc_angle gaugePw 100 = Except.ok 45 := by
  have h := C6_strict_breakpoints_exact gaugePw [(0, -45), (50, 0), (100, 45)] rfl
    (by simp [List.chain'_cons, ltByValue]; norm_num)
  exact ⟨h (0, -45) (by simp), h (50, 0) (by simp), h (100, 45) (by simp)⟩

/-- C8 counterexample: with a duplicated first breakpoint value, the
below-range guard returns the first angle, which does not lie on the
(vertical) line through the first two breakpoints. -/
theorem C8_counterexample :
    gaugeDup._angle_map = some [(0, 0), (0, 1)] ∧
    calc_angle gaugeDup (-1) = Except.ok 0 ∧
    ¬ onLine ((0 : ℚ), (0 : ℚ)) (0, 1) (-1) 0 := by
  refine ⟨rfl, ?_, ?_⟩
  · norm_num [calc_angle, gaugeDup, baseGauge]
  · norm_num [onLine]

/-- C8 amended: for a map with strictly increasing breakpoint values, every
value strictly below the first breakpoint maps onto the line through the
first two breakpoints, and every value strictly above the last maps onto the
line through the last two; the angle is the segment's own extrapolation,
never clamped. -/
theorem C8_extrapolation_on_line (g : Gauge) (a b : ℚ × ℚ) (l : List (ℚ × ℚ))
    (hm : g._angle_map = some (a :: b :: l))
    (hs : List.Chain' ltByValue (a :: b :: l)) :
    (∀ v, v < a.1 →
        calc_angle g v = Except.ok (interpSeg a.1 a.2 b.1 b.2 v) ∧
        onLine a b v (interpSeg a.1 a.2 b.1 b.2 v)) ∧
    (∀ v, (lastTwo a b l).2.1 < v →
        calc_angle g v = Except.ok
          (interpSeg (lastTwo a b l).1.1 (lastTwo a b l).1.2
            (lastTwo a b l).2.1 (lastTwo a b l).2.2 v) ∧
        onLine (lastTwo a b l).1 (lastTwo a b l).2 v
          (interpSeg (lastTwo a b l).1.1 (lastTwo a b l).1.2
            (lastTwo a b l).2.1 (lastTwo a b l).2.2 v)) := by
  have hab : a.1 < b.1 := (List.chain'_cons.mp hs).1
  have hrel : (lastTwo a b l).1.1 < (lastTwo a b l).2.1 := lastTwo_chain a b l hs
  constructor
  · intro v hv
    refine ⟨?_, interpSeg_onLine a b v (ne_of_gt hab)⟩
    simp only [calc_angle, hm]
    rw [if_pos hv.le, if_neg (ne_of_gt hab)]
  · intro v hv
    have halast : a.1 < (lastTwo a b l).2.1 := by
      rcases List.mem_cons.mp (lastTwo_snd_mem_tail a b l) with he | hmem
      · rw [he]; exact hab
      · exact chain_lt_head a (b :: l) hs _ (List.mem_cons_of_mem _ hmem)
    refine ⟨?_, interpSeg_onLine _ _ v (ne_of_gt hrel)⟩
    simp only [calc_angle, hm]
    rw [if_neg (not_le.mpr (halast.trans hv)), if_pos hv.le, if_neg (ne_of_gt hrel)]

/-- Witness for the amended C8 at the three-point calibration map: values
-10 and 120 extrapolate along the outer segments. -/
theorem C8_extrapolation_on_line_witness :
    (calc_angle gaugePw (-10) = Except.ok (interpSeg 0 (-45) 50 0 (-10)) ∧
      onLine (0, -45) (50, 0) (-10) (interpSeg 0 (-45) 50 0 (-10))) ∧
    (calc_angle gaugePw 120 = Except.ok (interpSeg 50 0 100 45 120) ∧
      onLine (50, 0) (100, 45) 120 (interpSeg 50 0 100 45 120)) := by
  have h := C8_extrapolation_on_line gaugePw (0, -45) (50, 0) [(100, 45)] rfl
    (by simp [List.chain'_cons, ltByValue]; norm_num)
  exact ⟨h.1 (-10) (by norm_num), h.2 120 (by norm_num [lastTwo])⟩

/-- Python `round` is the identity on integers. -/
theorem pyRound_intCast (n : ℤ) : pyRound (n : ℚ) = n := by
  unfold pyRound
  rw [Int.floor_intCast]
  norm_num

/-- One uniform pass of the default tick loop: when every index yields an
in-range value, a successfully computed angle, a fresh deduplication key and
a satisfied label rule, the loop emits one tick line and one label per
index. -/
theorem defaultTicksGo_uniform (g : Gauge) (td : ℤ) (tvs : ℕ → Option ℚ)
    (val ang : ℕ → ℚ) (is : List ℕ) (seen : List ℤ)
    (hval : ∀ i ∈ is, tvs i = some (val i) ∨
      (tvs i = none ∧ ¬ td = 0 ∧
        g._min + ((i : ℚ) / (td : ℚ)) * (g._max - g._min) = val i))
    (hca : ∀ i ∈ is, calc_angle g (val i) = Except.ok (ang i))
    (hin : ∀ i ∈ is, ¬(val i < g._min ∨ val i > g._max))
    (hseen : ∀ i ∈ is, angKey (ang i) ∉ seen)
    (hkeys : (is.map fun i => angKey (ang i)).Nodup)
    (hlab : ∀ i ∈ is,
      (i : ℤ) % max 1 (pyRound ((td : ℚ) / 12)) = 0 ∨ i = 0 ∨ (i : ℤ) = td) :
    defaultTicksGo g td (is.map fun i => (i, tvs i)) seen =
      Except.ok (is.bind fun i =>
        [TickElem.line (val i) (ang i) false, TickElem.label (val i) (ang i)]) := by
  induction is generalizing seen with
  | nil => rfl
  | cons i is ih =>
      have hmem : i ∈ i :: is := List.mem_cons_self i is
      have hkeyi : angKey (ang i) ∉ is.map fun j => angKey (ang j) :=
        (List.nodup_cons.mp hkeys).1
      have ihr := ih (angKey (ang i) :: seen)
        (fun j hj => hval j (List.mem_cons_of_mem _ hj))
        (fun j hj => hca j (List.mem_cons_of_mem _ hj))
        (fun j hj => hin j (List.mem_cons_of_mem _ hj))
        (fun j hj => by
          intro hc
          rcases List.mem_cons.mp hc with he | hseenj
          · exact hkeyi (he ▸ List.mem_map_of_mem (fun k => angKey (ang k)) hj)
          · exact hseen j (List.mem_cons_of_mem _ hj) hseenj)
        (List.nodup_cons.mp hkeys).2
        (fun j hj => hlab j (List.mem_cons_of_mem _ hj))
      rcases hval i hmem with hv | ⟨hv0, hvne, hveq⟩
      · simp only [List.map_cons, defaultTicksGo, hv, exceptBind_ok]
        rw [hca i hmem]
        simp only [exceptBind_ok]
        rw [if_neg (hin i hmem), if_neg (hseen i hmem), ihr]
        simp only [exceptBind_ok, exceptPure]
        rw [if_pos (hlab i hmem)]
        simp [List.cons_bind]
      · simp only [List.map_cons, defaultTicksGo, hv0]
        rw [if_neg hvne, hveq]
        simp only [exceptBind_ok]
        rw [hca i hmem]
        simp only [exceptBind_ok]
        rw [if_neg (hin i hmem), if_neg (hseen i hmem), ihr]
        simp only [exceptBind_ok, exceptPure]
        rw [if_pos (hlab i hmem)]
        simp [List.cons_bind]

/-- Collecting the tick-line values of a line-label pair stream. -/
theorem filterMap_line_of_bind (is : List ℕ) (val ang : ℕ → ℚ) :
    ((is.bind fun i =>
        [TickElem.line (val i) (ang i) false, TickElem.label (val i) (ang i)]).filterMap
      tickLineValue) = is.map val := by
  induction is with
  | nil => rfl
  | cons i is ih => simp [List.cons_bind, tickLineValue, ih]

/-- Collecting the tick-label values of a line-label pair stream. -/
theorem filterMap_label_of_bind (is : List ℕ) (val ang : ℕ → ℚ) :
    ((is.bind fun i =>
        [TickElem.line (val i) (ang i) false, TickElem.label (val i) (ang i)]).filterMap
      tickLabelValue) = is.map val := by
  induction is with
  | nil => rfl
  | cons i is ih => simp [List.cons_bind, tickLabelValue, ih]

/-- C4 counterexample: the full-turn special case at line 360 requires
`gauge_type == 'semicircular'`; a circular gauge with span exactly 360 takes
the uniform policy instead and emits `tick_count + 1` ticks evenly spaced by
value (here 3 ticks at steps of 180), not 13 ticks at steps of 30. -/
theorem C4_counterexample :
    gaugeCirc360._gauge_type = "circular" ∧
    gaugeCirc360._angle_map = none ∧
    gaugeCirc360._max - gaugeCirc360._min = 360 ∧
    (generate_tick_marks gaugeCirc360).map (fun l => l.filterMap tickLineValue)
      = Except.ok ((List.range 3).map fun i : ℕ => 180 * (i : ℚ)) ∧
    ((List.range 3).map fun i : ℕ => 180 * (i : ℚ)).length = 3 ∧ (3 : ℕ) ≠ 13 := by
  have hgen : generate_tick_marks gaugeCirc360 =
      Except.ok ((List.range 3).bind fun i =>
        [TickElem.line (180 * (i : ℚ)) (270 + 180 * (i : ℚ)) false,
         TickElem.label (180 * (i : ℚ)) (270 + 180 * (i : ℚ))]) := by
    have h1 : generate_tick_marks gaugeCirc360 =
        defaultTicksGo gaugeCirc360 2
          ((List.range 3).map fun i => (i, (none : Option ℚ))) [] := by
      simp only [generate_tick_marks]
      norm_num [gaugeCirc360, gaugeLinearCircular, baseGauge,
        show (3 : ℤ).toNat = 3 from rfl,
        show ¬(("circular" : String) = "semicircular") from by decide]
    rw [h1]
    have hkey : ∀ i : ℕ, angKey ((270 : ℚ) + 180 * i) = 270000000 + 180000000 * (i : ℤ) := by
      intro i
      unfold angKey
      rw [show ((270 : ℚ) + 180 * i) * 1000000
          = ((270000000 + 180000000 * (i : ℤ) : ℤ) : ℚ) by push_cast; ring]
      exact pyRound_intCast _
    have hu := defaultTicksGo_uniform gaugeCirc360 2 (fun _ => none)
      (fun i => 180 * (i : ℚ)) (fun i => 270 + 180 * (i : ℚ)) (List.range 3) []
      (fun i _ => Or.inr ⟨rfl, by norm_num, by
        norm_num [gaugeCirc360, gaugeLinearCircular, baseGauge]
        ring⟩)
      (fun i _ => by
        simp only [calc_angle, linearAngle, gaugeCirc360, gaugeLinearCircular, baseGauge]
        norm_num)
      (fun i hi => by
        have hi2 : (i : ℚ) ≤ 2 := by
          exact_mod_cast Nat.lt_succ_iff.mp (List.mem_range.mp hi)
        norm_num [gaugeCirc360, gaugeLinearCircular, baseGauge]
        nlinarith)
      (fun i _ => by simp)
      (by
        rw [List.map_congr_left fun i _ => hkey i]
        exact (List.nodup_range 3).map fun a b h => by omega)
      (fun i _ => by
        left
        rw [show max 1 (pyRound (((2 : ℤ) : ℚ) / 12)) = 1 by norm_num [pyRound]]
        exact Int.emod_one _)
    exact hu
  refine ⟨rfl, rfl, by norm_num [gaugeCirc360, gaugeLinearCircular, baseGauge], ?_,
    by rw [List.length_map, List.length_range], by norm_num⟩
  rw [hgen]
  simp only [exceptMap_ok]
  rw [filterMap_line_of_bind]

/-- C4 amended: for a semicircular gauge without an angle map whose numeric
span is exactly 360 (and with the counter-clockwise attribute present, since
the constructor slip of line 80 otherwise makes the angle computation
raise), the planner emits exactly 13 ticks at the values
`min, min + 30, ..., min + 360`, and every one of the 13 ticks is labeled. -/
theorem C4_semicircular_fullturn_ticks (g : Gauge) (b : Bool)
    (hmap : g._angle_map = none) (htype : g._gauge_type = "semicircular")
    (hspan : g._max = g._min + 360) (hshow : g._show_ticks = true)
    (hccw : g._counter_clockwise = some b) (hstart : g._start_angle = 180)
    (hrange : g._angle_range = -180) :
    generate_tick_marks g = Except.ok ((List.range 13).bind fun i =>
      [TickElem.line (g._min + (i : ℚ) * 30)
         (180 - (i : ℚ) * 15 * (if b then -1 else 1)) false,
       TickElem.label (g._min + (i : ℚ) * 30)
         (180 - (i : ℚ) * 15 * (if b then -1 else 1))]) ∧
    (generate_tick_marks g).map (fun l => l.filterMap tickLineValue)
      = Except.ok ((List.range 13).map fun i : ℕ => g._min + (i : ℚ) * 30) ∧
    (generate_tick_marks g).map (fun l => l.filterMap tickLabelValue)
      = Except.ok ((List.range 13).map fun i : ℕ => g._min + (i : ℚ) * 30) := by
  have hmm : g._max - g._min = 360 := by rw [hspan]; ring
  have h1 : generate_tick_marks g = defaultTicksGo g 12
      ((List.range 13).map fun i => (i, some (g._min + (i : ℚ) * 30))) [] := by
    simp only [generate_tick_marks, hshow, hmap, htype, hmm]
    norm_num
  have hkey : ∀ i : ℕ, angKey ((180 : ℚ) - i * 15 * (if b then -1 else 1))
      = 180000000 - 15000000 * (i : ℤ) * (if b then -1 else 1) := by
    intro i
    unfold angKey
    cases b
    · rw [if_neg (by simp), if_neg (by simp)]
      rw [show ((180 : ℚ) - i * 15 * 1) * 1000000
          = ((180000000 - 15000000 * (i : ℤ) * 1 : ℤ) : ℚ) by push_cast; ring]
      exact pyRound_intCast _
    · rw [if_pos rfl, if_pos rfl]
      rw [show ((180 : ℚ) - i * 15 * (-1)) * 1000000
          = ((180000000 - 15000000 * (i : ℤ) * (-1) : ℤ) : ℚ) by push_cast; ring]
      exact pyRound_intCast _
  have hmain : generate_tick_marks g = Except.ok ((List.range 13).bind fun i =>
      [TickElem.line (g._min + (i : ℚ) * 30)
         (180 - (i : ℚ) * 15 * (if b then -1 else 1)) false,
       TickElem.label (g._min + (i : ℚ) * 30)
         (180 - (i : ℚ) * 15 * (if b then -1 else 1))]) := by
    rw [h1]
    have hu := defaultTicksGo_uniform g 12 (fun i => some (g._min + (i : ℚ) * 30))
      (fun i => g._min + (i : ℚ) * 30)
      (fun i => 180 - (i : ℚ) * 15 * (if b then -1 else 1)) (List.range 13) []
      (fun i _ => Or.inl rfl)
      (fun i _ => by
        simp only [calc_angle, linearAngle, hmap, hmm, hccw, hstart, hrange]
        norm_num
        cases b <;> norm_num <;> ring_nf)
      (fun i hi => by
        have hi2 : (i : ℚ) ≤ 12 := by
          exact_mod_cast Nat.lt_succ_iff.mp (List.mem_range.mp hi)
        rw [hspan]
        push_neg
        constructor
        · nlinarith
        · nlinarith)
      (fun i _ => by simp)
      (by
        rw [List.map_congr_left fun i _ => hkey i]
        cases b
        · exact (List.nodup_range 13).map fun x y h => by
            norm_num at h
            omega
        · exact (List.nodup_range 13).map fun x y h => by
            norm_num at h
            omega)
      (fun i _ => by
        left
        rw [show max 1 (pyRound (((12 : ℤ) : ℚ) / 12)) = 1 by norm_num [pyRound]]
        exact Int.emod_one _)
    exact hu
  refine ⟨hmain, ?_, ?_⟩
  · rw [hmain]
    simp only [exceptMap_ok]
    rw [filterMap_line_of_bind]
  · rw [hmain]
    simp only [exceptMap_ok]
    rw [filterMap_label_of_bind]

/-- Witness for the amended C4 at the heading fixture (clockwise). -/
theorem C4_semicircular_fullturn_ticks_witness :
    generate_tick_marks gaugeHeading = Except.ok ((List.range 13).bind fun i =>
      [TickElem.line (gaugeHeading._min + (i : ℚ) * 30)
         (180 - (i : ℚ) * 15 * (if false then -1 else 1)) false,
       TickElem.label (gaugeHeading._min + (i : ℚ) * 30)
         (180 - (i : ℚ) * 15 * (if false then -1 else 1))]) :=
  (C4_semicircular_fullturn_ticks gaugeHeading false rfl rfl
    (by norm_num [gaugeHeading, baseGauge]) rfl rfl rfl rfl).1
